import Mathlib

/-!
Verification of the metacom packet codec (`src/lib/protocol.js`, second
variant, lines 66-135) and channel coordinator (`src/lib/channel.js`).

JavaScript strings are modelled as `List Char` (`JStr`), JavaScript values
by the inductive `JVal`, and JavaScript objects by insertion-ordered
association lists (`WireObj`), which is what `Object.keys` order is for the
non-index string keys this protocol produces.  Fallible JavaScript code is
modelled with `Except` (a `.error` result models a thrown exception) and
`Option` (a `none` models JavaScript `null`/`undefined` results).
-/

/-- A JavaScript string: a sequence of characters. -/
abbrev JStr := List Char

/-- The subset of JavaScript values the protocol layer manipulates. -/
inductive JVal where
  | null
  | undef
  | bool (b : Bool)
  | num (n : Int)
  | nan
  | str (s : JStr)
  | obj (fields : List (JStr × JVal))

/-- JavaScript truthiness: `undefined`, `null`, `false`, `0`, `NaN` and the
empty string are falsy; every object is truthy. -/
def truthy : JVal → Bool
  | .null => false
  | .undef => false
  | .bool b => b
  | .num n => n != 0
  | .nan => false
  | .str s => !s.isEmpty
  | .obj _ => true

/-- The decimal digit `d` (`d < 10`) as a character, `'0'` .. `'9'`. -/
def digitChar (d : Nat) : Char := Char.ofNat (48 + d)

/-- Decimal digits of `n`, most significant first; the `fuel` argument only
drives the recursion (`n` itself is always enough fuel). -/
def natToCharsAux : Nat → Nat → List Char
  | 0, _ => []
  | _ + 1, 0 => []
  | fuel + 1, n => natToCharsAux fuel (n / 10) ++ [digitChar (n % 10)]

/-- JavaScript's decimal rendering of a non-negative integer. -/
def natToChars (n : Nat) : JStr :=
  if n = 0 then ['0'] else natToCharsAux n n

/-- JavaScript's decimal rendering of an integer (template-literal `${n}`). -/
def intToChars (n : Int) : JStr :=
  if n < 0 then '-' :: natToChars n.natAbs else natToChars n.natAbs

/-- The number a big-endian list of decimal digit characters denotes. -/
def charsToNat (s : List Char) : Nat :=
  s.foldl (fun acc c => acc * 10 + (c.toNat - 48)) 0

/-- Model of JavaScript string coercion (template literal `${v}`). -/
def jstr : JVal → JStr
  | .null => "null".toList
  | .undef => "undefined".toList
  | .bool true => "true".toList
  | .bool false => "false".toList
  | .num n => intToChars n
  | .nan => "NaN".toList
  | .str s => s
  | .obj _ => "[object Object]".toList

/-- The digits-prefix step of JavaScript `parseInt`: take the leading decimal
digits; no digits at all gives `NaN`. -/
def jsParseIntFrom (s : List Char) : JVal :=
  let ds := s.takeWhile Char.isDigit
  if ds.isEmpty then .nan else .num (charsToNat ds)

/-- Model of JavaScript `parseInt(s)` on decimal input: skip leading
whitespace, honour one sign character, then read the leading digit run.
(The `0x` hexadecimal prefix of the real builtin is not reachable from this
protocol's version strings and is not modelled.) -/
def jsParseInt (s : JStr) : JVal :=
  let t := s.dropWhile Char.isWhitespace
  if t.head? = some '-' then
    match jsParseIntFrom t.tail with
    | .num n => .num (-n)
    | v => v
  else if t.head? = some '+' then jsParseIntFrom t.tail
  else jsParseIntFrom t

/-- JavaScript `s.split(c)` for a one-character separator. -/
def splitOnChar (c : Char) : List Char → List (List Char)
  | [] => [[]]
  | a :: rest =>
    let r := splitOnChar c rest
    if a = c then [] :: r
    else
      match r with
      | [] => [[a]]
      | t :: ts => (a :: t) :: ts

/-- A JavaScript object: fields in insertion order (the `Object.keys` order
for the non-index string keys this protocol uses). -/
abbrev WireObj := List (JStr × JVal)

/-- Property read `o[k]`: a missing property is `undefined`. -/
def getProp : WireObj → JStr → JVal
  | [], _ => .undef
  | (k, v) :: rest, key => if k = key then v else getProp rest key

/-- Rest-destructuring `{k, ...data}`: the remaining fields, in order. -/
def removeProp : WireObj → JStr → WireObj
  | [], _ => []
  | (k, v) :: rest, key =>
    if k = key then removeProp rest key else (k, v) :: removeProp rest key

/-- Optional chaining `v?.k`: property read on an object, `undefined` when
the receiver is nullish or a primitive without that property. -/
def optChain (v : JVal) (key : JStr) : JVal :=
  match v with
  | .obj fields => getProp fields key
  | _ => .undef

namespace Protocol

/-- `serializer.call` (`protocol.js:68-71`): the routing key concatenates
`iface`, the `.ver` segment only when `ver` is truthy, `/` and `method`. -/
def serializerCall (d : WireObj) : WireObj :=
  [("call".toList, getProp d ("callId".toList)),
   (jstr (getProp d ("iface".toList))
      ++ (if truthy (getProp d ("ver".toList))
          then '.' :: jstr (getProp d ("ver".toList)) else [])
      ++ '/' :: jstr (getProp d ("method".toList)),
    getProp d ("args".toList))]

/-- `serializer.callback` (`protocol.js:72`). -/
def serializerCallback (d : WireObj) : WireObj :=
  [("callback".toList, getProp d ("callId".toList)),
   ("result".toList, getProp d ("result".toList))]

/-- `serializer.event` (`protocol.js:73-76`). -/
def serializerEvent (d : WireObj) : WireObj :=
  [("event".toList, getProp d ("eventId".toList)),
   (jstr (getProp d ("iface".toList)) ++ '/' :: jstr (getProp d ("eventName".toList)),
    getProp d ("args".toList))]

/-- `serializer.stream` (`protocol.js:77-82`). -/
def serializerStream (d : WireObj) : WireObj :=
  [("stream".toList, getProp d ("streamId".toList)),
   ("name".toList, getProp d ("name".toList)),
   ("size".toList, getProp d ("size".toList)),
   ("status".toList, getProp d ("status".toList))]

/-- `serializer.error` (`protocol.js:83-86`). -/
def serializerError (d : WireObj) : WireObj :=
  [("callback".toList, getProp d ("callId".toList)),
   ("error".toList,
    .obj [("message".toList, getProp d ("message".toList)),
          ("code".toList, getProp d ("code".toList))])]

/-- `serialize` (`protocol.js:89`): `serializer[type]?.(data) ?? null`.
The `none` fallback is exact for types that name no property at all; a type
naming an inherited `Object.prototype` member (`toString`, `valueOf`, …)
would call that inherited function in JavaScript and return its value, which
lies outside this protocol model — no theorem below evaluates `serialize` at
such a type. -/
def serialize (type : JStr) (data : WireObj) : Option WireObj :=
  if type = "call".toList then some (serializerCall data)
  else if type = "callback".toList then some (serializerCallback data)
  else if type = "event".toList then some (serializerEvent data)
  else if type = "stream".toList then some (serializerStream data)
  else if type = "error".toList then some (serializerError data)
  else none

/-- An absent split component (`undefined`) or the string itself. -/
def strOfOpt : Option JStr → JVal
  | none => .undef
  | some s => .str s

/-- `ver && parseInt(ver)` (`protocol.js:100`): `undefined` stays absent, a
falsy (empty) string is returned unchanged, otherwise `parseInt`. -/
def verValue : Option JStr → JVal
  | none => .undef
  | some s => if s.isEmpty then .str s else jsParseInt s

/-- `deserializer.call` (`protocol.js:92-103`). -/
def deserializerCall (packet : WireObj) : WireObj :=
  let data := removeProp packet ("call".toList)
  let target : Option JStr := (data.map Prod.fst).head?
  let parts : List JStr :=
    match target with
    | some t => splitOnChar '/' t
    | none => []
  let service := parts.get? 0
  let meth := parts.get? 1
  let sparts : List JStr :=
    match service with
    | some s => splitOnChar '.' s
    | none => []
  let iface := sparts.get? 0
  let ver := sparts.get? 1
  [("callId".toList, getProp packet ("call".toList)),
   ("iface".toList, strOfOpt iface),
   ("method".toList, strOfOpt meth),
   ("ver".toList, verValue ver),
   ("args".toList,
    match target with
    | some t => getProp data t
    | none => JVal.undef)]

/-- `deserializer.callback` (`protocol.js:104`). -/
def deserializerCallback (packet : WireObj) : WireObj :=
  [("callId".toList, getProp packet ("callback".toList)),
   ("result".toList, getProp packet ("result".toList))]

/-- `deserializer.event` (`protocol.js:105-109`). -/
def deserializerEvent (packet : WireObj) : WireObj :=
  let data := removeProp packet ("event".toList)
  let target : Option JStr := (data.map Prod.fst).head?
  let parts : List JStr :=
    match target with
    | some t => splitOnChar '/' t
    | none => []
  let iface := parts.get? 0
  let eventName := parts.get? 1
  [("eventId".toList, getProp packet ("event".toList)),
   ("iface".toList, strOfOpt iface),
   ("eventName".toList, strOfOpt eventName),
   ("args".toList,
    match target with
    | some t => getProp data t
    | none => JVal.undef)]

/-- `deserializer.stream` (`protocol.js:110-115`). -/
def deserializerStream (packet : WireObj) : WireObj :=
  [("streamId".toList, getProp packet ("stream".toList)),
   ("name".toList, getProp packet ("name".toList)),
   ("size".toList, getProp packet ("size".toList)),
   ("status".toList, getProp packet ("status".toList))]

/-- `deserializer.error` (`protocol.js:116-120`). -/
def deserializerError (packet : WireObj) : WireObj :=
  let error := getProp packet ("error".toList)
  [("callId".toList, getProp packet ("callback".toList)),
   ("message".toList, optChain error ("message".toList)),
   ("code".toList, optChain error ("code".toList))]

/-- `deserialize` (`protocol.js:123-128`).  `.ok none` models returning
`null`; `.error` models the `TypeError` thrown by `deserializer[type](packet)`
when `type` names no property at all (such as `foo`).  A type naming an
inherited `Object.prototype` member (`toString`, `valueOf`, …) would resolve
to that inherited callable in JavaScript and return its value instead of
throwing; that lies outside this protocol model, and no theorem below
evaluates `deserialize` at such a key — the keys exercised are the five kind
names, error-bearing objects, the empty object, and `foo`. -/
def deserialize (packet : WireObj) : Except JStr (Option (JStr × WireObj)) :=
  let type : Option JStr :=
    if truthy (getProp packet ("error".toList)) then some ("error".toList)
    else (packet.map Prod.fst).head?
  match type with
  | none => .ok none
  | some t =>
    if t.isEmpty then .ok none
    else if t = "call".toList then .ok (some (t, deserializerCall packet))
    else if t = "callback".toList then .ok (some (t, deserializerCallback packet))
    else if t = "event".toList then .ok (some (t, deserializerEvent packet))
    else if t = "stream".toList then .ok (some (t, deserializerStream packet))
    else if t = "error".toList then .ok (some (t, deserializerError packet))
    else .error ("TypeError: deserializer[type] is not a function".toList)

end Protocol

/-- Insertion-ordered model of a JavaScript `Map` keyed by strings:
lookup of the entry for a key. -/
def mapGet {α : Type} : List (JStr × α) → JStr → Option α
  | [], _ => none
  | (k, v) :: rest, key => if k = key then some v else mapGet rest key

/-- `Map.set`: replace the entry in place when the key exists, append
otherwise. -/
def mapSet {α : Type} : List (JStr × α) → JStr → α → List (JStr × α)
  | [], key, v => [(key, v)]
  | (k, w) :: rest, key, v =>
    if k = key then (key, v) :: rest else (k, w) :: mapSet rest key v

/-- `Map.delete`: a `Map` holds at most one entry per key, so removing every
entry for the key is the same operation on the lists `mapSet` builds. -/
def mapDelete {α : Type} (m : List (JStr × α)) (key : JStr) : List (JStr × α) :=
  m.filter (fun p => !decide (p.1 = key))

/-- `Map` key comparison (SameValueZero) on `JVal` keys.  `NaN` matches
itself; two decoded objects are distinct references, so object keys never
match structurally. -/
def sameValueZero : JVal → JVal → Bool
  | .null, .null => true
  | .undef, .undef => true
  | .bool a, .bool b => a == b
  | .num a, .num b => a == b
  | .nan, .nan => true
  | .str a, .str b => a == b
  | _, _ => false

/-- `Map.get` for `JVal`-keyed maps (the per-channel stream table). -/
def jmapGet {α : Type} : List (JVal × α) → JVal → Option α
  | [], _ => none
  | (k, v) :: rest, key => if sameValueZero k key then some v else jmapGet rest key

/-- `Map.set` for `JVal`-keyed maps. -/
def jmapSet {α : Type} : List (JVal × α) → JVal → α → List (JVal × α)
  | [], key, v => [(key, v)]
  | (k, w) :: rest, key, v =>
    if sameValueZero k key then (key, v) :: rest else (k, w) :: jmapSet rest key v

/-- `Map.delete` for `JVal`-keyed maps. -/
def jmapDelete {α : Type} (m : List (JVal × α)) (key : JVal) : List (JVal × α) :=
  m.filter (fun p => !sameValueZero p.1 key)

namespace Channel

/-- The request metadata `Channel.error` logs (`this.ip`, `req.method`,
`req.url`). -/
structure ReqInfo where
  ip : JStr
  url : JStr
  reqMethod : JStr

/-- A JavaScript `Error` value as the channel observes it: its message, its
optional numeric `code` and `httpCode` properties, and its `stack` string. -/
structure JSError where
  message : JStr
  code : Option Nat
  httpCode : Option Nat
  stack : JStr

/-- `new Error(msg)`: no `code`/`httpCode`; the stack begins with the
`Error: msg` header line (the trace below it is irrelevant to the model). -/
def mkError (msg : JStr) : JSError :=
  ⟨msg, none, none, "Error: ".toList ++ msg⟩

/-- `error.code = error.httpCode = 408` when the message is the timeout
message (`channel.js:228-230`). -/
def remapTimeout (e : JSError) : JSError :=
  if e.message = "Timeout reached".toList
  then ⟨e.message, some 408, some 408, e.stack⟩ else e

/-- Model of Node's `http.STATUS_CODES` table (an external collaborator),
restricted to the codes this development mentions. -/
def STATUS_CODES (code : Nat) : Option JStr :=
  if code = 200 then some ("OK".toList)
  else if code = 400 then some ("Bad Request".toList)
  else if code = 403 then some ("Forbidden".toList)
  else if code = 404 then some ("Not Found".toList)
  else if code = 408 then some ("Request Timeout".toList)
  else if code = 500 then some ("Internal Server Error".toList)
  else if code = 503 then some ("Service Unavailable".toList)
  else none

/-- Truthiness of an optional numeric argument (`null`/`undefined`/`0` are
falsy). -/
def optNatTruthy : Option Nat → Bool
  | none => false
  | some n => n != 0

/-- One observable effect of the channel: a sent packet (with the optional
http status hint of `send(packet, httpCode)`), a raw text frame, a log line,
or an effect on a stream handle. -/
inductive Output where
  | sent (packet : WireObj) (httpCode : Option Nat)
  | sentText (text : JStr)
  | logError (line : JStr)
  | logInfo (line : JStr)
  | pushed (streamId : JVal) (payload : JVal)
  | streamClosed (streamId : JVal)
  | streamTerminated (streamId : JVal)

/-- `Channel.error` (`channel.js:246-257`).  `code?` is the first parameter
(`none` models passing `undefined`, which triggers the `code = 500`
default), `err` the `error` option, `httpCode?` the `httpCode` option.
The option object's occasional `pass: true` member is not destructured by
the source and therefore has no parameter here.  Dispatches to
`serializer.error`, which is what `protocol.serialize('error', …)` resolves
to. -/
def error (info : ReqInfo) (code? : Option Nat) (callId : JVal)
    (err : Option JSError) (httpCode? : Option Nat) : List Output :=
  let code := code?.getD 500
  let httpCode : Nat :=
    if optNatTruthy httpCode? then httpCode?.getD 500
    else
      match err with
      | some e => if optNatTruthy e.httpCode then e.httpCode.getD 500 else code
      | none => code
  let status := STATUS_CODES httpCode
  let pass : Bool := decide (httpCode < 500) || decide (599 < httpCode)
  let message : JStr :=
    match pass, err with
    | true, some e => e.message
    | _, _ => status.getD ("Unknown error".toList)
  let reason : JStr :=
    natToChars httpCode ++ '\t' :: natToChars code ++ '\t' ::
      (match err with
       | some e => e.stack
       | none =>
         match status with
         | some s => s
         | none => "undefined".toList)
  let packet := Protocol.serializerError
    [("callId".toList, callId), ("message".toList, .str message),
     ("code".toList, .num code)]
  [.logError (info.ip ++ '\t' :: info.reqMethod ++ '\t' :: info.url ++ '\t' :: reason),
   .sent packet (some httpCode)]

/-- A live session: its token and its (proxied) state object
(`channel.js:23-30`). -/
structure Session where
  token : JStr
  data : JVal

/-- The init data of a registered inbound stream handle; the byte-stream
engine behind it is external (`streams.js`), so the table entry records what
`new MetaReadable({streamId, name, size})` received. -/
structure MetaReadable where
  streamId : JVal
  name : JVal
  size : JVal

/-- The state one channel can reach: the process-wide session registry
(`channel.js:32`), the channel's bound session, its inbound stream table,
and the two external inputs the session paths consult (the token of the
request's cookie header, and the `auth.readSession` store). -/
structure ChannelState where
  info : ReqInfo
  cookieToken : Option JStr
  authData : JStr → Option JVal
  sessions : List (JStr × Session)
  session : Option Session
  streams : List (JVal × MetaReadable)

/-- `Client.initializeSession` (`channel.js:76-82`); always returns `true`,
so the model returns only the new state. -/
def initializeSession (st : ChannelState) (token : JStr) (data : JVal) :
    ChannelState :=
  let sessions :=
    match st.session with
    | some s => mapDelete st.sessions s.token
    | none => st.sessions
  let session : Session := ⟨token, data⟩
  { st with sessions := mapSet sessions token session, session := some session }

/-- `Client.finalizeSession` (`channel.js:84-91`). -/
def finalizeSession (st : ChannelState) (token : JStr) : ChannelState × Bool :=
  match mapGet st.sessions token with
  | none => (st, false)
  | some _ =>
    match st.session with
    | none => (st, false)
    | some cur =>
      ({ st with sessions := mapDelete st.sessions cur.token, session := none },
       true)

/-- `Client.restoreSession` (`channel.js:99-105`); a live state models a
present channel, so the `!this.#channel` guard cannot fire. -/
def restoreSession (st : ChannelState) (token : JStr) : ChannelState × Bool :=
  match mapGet st.sessions token with
  | none => (st, false)
  | some s => ({ st with session := some s }, true)

/-- `Channel.resumeCookieSession` (`channel.js:291-301`), with the cookie
header parse and the asynchronous store read represented by the state's
`cookieToken` and `authData` fields; the asynchronous tail is modelled as
having completed. -/
def resumeCookieSession (st : ChannelState) : ChannelState :=
  match st.cookieToken with
  | none => st
  | some token =>
    let r := restoreSession st token
    if r.2 then r.1
    else
      match st.authData token with
      | some data => initializeSession st token data
      | none => st

/-- `typeof name === 'string'`. -/
def isString : JVal → Bool
  | .str _ => true
  | _ => false

/-- `Number.isSafeInteger(size)`: an integer of magnitude at most
`2^53 - 1`; every other value (including `NaN` and strings) fails. -/
def isSafeInteger : JVal → Bool
  | .num n => decide (n.natAbs ≤ 9007199254740991)
  | _ => false

/-- `v === s` against a string literal. -/
def isStrEq (v : JVal) (s : String) : Bool :=
  match v with
  | .str t => t == s.toList
  | _ => false

/-- `Channel.callHandler` (`channel.js:165-173`) on the decoded packet data
`d`.  The returned flag records whether `this.rpc(...)` was started; `false`
means the procedure was never resolved or invoked. -/
def callHandler (st : ChannelState) (d : WireObj) :
    ChannelState × List Output × Bool :=
  let st := resumeCookieSession st
  let callId := getProp d ("callId".toList)
  let iface := getProp d ("iface".toList)
  let meth := getProp d ("method".toList)
  let args := getProp d ("args".toList)
  if !truthy callId || !truthy iface || !truthy meth || !truthy args then
    (st,
     error st.info (some 400) callId
       (some (mkError ("Packet structure error".toList))) none,
     false)
  else (st, [], true)

/-- `Channel.streamHandler` (`channel.js:175-199`) on the decoded packet
data `d`; `close()`/`terminate()` on the external handle are recorded as
outputs. -/
def streamHandler (st : ChannelState) (d : WireObj) :
    ChannelState × List Output :=
  let streamId := getProp d ("streamId".toList)
  let name := getProp d ("name".toList)
  let size := getProp d ("size".toList)
  let status := getProp d ("status".toList)
  let stream := jmapGet st.streams streamId
  if truthy name && isString name && isSafeInteger size then
    match stream with
    | some _ =>
      (st,
       error st.info (some 400) streamId
         (some (mkError ("Stream ".toList ++ jstr name
            ++ " is already initialized".toList))) none)
    | none =>
      ({ st with streams := jmapSet st.streams streamId ⟨streamId, name, size⟩ },
       [])
  else
    match stream with
    | none =>
      (st,
       error st.info (some 400) streamId
         (some (mkError ("Stream ".toList ++ jstr streamId
            ++ " is not initialized".toList))) none)
    | some _ =>
      if isStrEq status "end" then
        ({ st with streams := jmapDelete st.streams streamId },
         [.streamClosed streamId])
      else if isStrEq status "terminate" then
        ({ st with streams := jmapDelete st.streams streamId },
         [.streamTerminated streamId])
      else
        (st,
         error st.info (some 400) streamId
           (some (mkError ("Stream packet structure error".toList))) none)

/-- `Channel.binary` (`channel.js:150-163`).  `Chunk.decode` belongs to the
external stream engine, so its outcome is the argument: `.ok (streamId,
payload)` a decoded chunk, `.error e` a thrown decode exception. -/
def binary (st : ChannelState) (chunk : Except JSError (JVal × JVal)) :
    ChannelState × List Output :=
  match chunk with
  | .error e => (st, error st.info (some 400) (.num 0) (some e) none)
  | .ok (streamId, payload) =>
    match jmapGet st.streams streamId with
    | some _ => (st, [.pushed streamId payload])
    | none =>
      (st,
       error st.info (some 400) streamId
         (some (mkError ("Stream ".toList ++ jstr streamId
            ++ " is not initialized".toList))) none)

/-- The outcome of `proc.invoke(context, args)`: a returned non-`Error`
value, a returned `Error` instance (`result?.constructor?.name === 'Error'`),
or a thrown error. -/
inductive InvokeOutcome where
  | value (v : JVal)
  | errorValue (e : JSError)
  | thrown (e : JSError)

/-- A resolved procedure of the external method registry: its access level,
whether `await proc.enter()` resolves, and how `invoke` ends. -/
structure Proc where
  access : JStr
  enterOk : Bool
  outcome : InvokeOutcome

/-- What one run of `Channel.rpc` did: its outputs, whether `enter()` was
called and resolved, whether the procedure body was invoked, and how many
times `leave()` ran. -/
structure RpcTrace where
  outputs : List Output
  enterCalled : Bool
  enterSucceeded : Bool
  invoked : Bool
  leaveCalls : Nat

/-- `Channel.rpc` (`channel.js:205-244`).  `proc?` is the method registry's
answer for `(iface, ver, method)`.  The fresh `Context` and its `accountId`
assignment touch only the invocation's own context object, so they leave no
trace here.  Dispatches to `serializer.callback`, which is what
`protocol.serialize('callback', …)` resolves to. -/
def rpc (st : ChannelState) (proc? : Option Proc) (callId iface meth : JVal) :
    RpcTrace :=
  match proc? with
  | none => ⟨error st.info (some 404) callId none none, false, false, false, 0⟩
  | some proc =>
    if st.session.isNone && proc.access != "public".toList then
      ⟨error st.info (some 403) callId none none, false, false, false, 0⟩
    else if !proc.enterOk then
      ⟨error st.info (some 503) callId none none, true, false, false, 0⟩
    else
      match proc.outcome with
      | .thrown e =>
        let e := remapTimeout e
        ⟨error st.info e.code callId (some e) none, true, true, true, 1⟩
      | .errorValue e =>
        ⟨error st.info e.code callId (some e)
           (some (match e.httpCode with
                  | some h => if h != 0 then h else 200
                  | none => 200)),
         true, true, true, 1⟩
      | .value v =>
        ⟨[.sent (Protocol.serializerCallback
            [("callId".toList, callId), ("result".toList, v)]) none,
          .logInfo (st.info.ip ++ '\t' :: jstr iface ++ '/' :: jstr meth)],
         true, true, true, 1⟩

/-- `Channel.message` (`channel.js:128-148`).  `isEmptyPacket` models the
byte comparison with the literal `'{}'` frame, `parsed` the result of the
external `metautil.jsonParse` (`none` = parse failure).  An `.error` result
models an exception escaping the dispatch path: in particular, when
`protocol.deserialize` returns `null`, the destructuring
`const { type, data } = ...` throws a `TypeError`, so the `if (!type)`
branch below it is unreachable.  The handler is fetched as an unbound
function; the model runs the handler bodies with their channel, which is the
behaviour the surrounding code expects of them. -/
def message (st : ChannelState) (isEmptyPacket : Bool) (parsed : Option WireObj) :
    Except JStr (ChannelState × List Output) :=
  if isEmptyPacket then .ok (st, [.sentText ("\x7b\x7d".toList)])
  else
    match parsed with
    | none =>
      .ok (st,
        error st.info (some 500) .undef
          (some (mkError ("JSON parsing error".toList))) none)
    | some packet =>
      match Protocol.deserialize packet with
      | .error e => .error e
      | .ok none =>
        .error ("TypeError: Cannot destructure property of null".toList)
      | .ok (some (type, data)) =>
        if type.isEmpty then
          .ok (st,
            error st.info (some 500) .undef
              (some (mkError ("Packet structure error".toList))) none)
        else if type = "call".toList then
          let r := callHandler st data
          .ok (r.1, r.2.1)
        else if type = "stream".toList then .ok (streamHandler st data)
        else .ok (st, [])

end Channel

/-! ### Definitions the claim statements use -/

/-- A call descriptor's `ver` field: absent, or a positive integer. -/
def verJ : Option Nat → JVal
  | none => .undef
  | some v => .num v

/-- The `.ver` segment the routing key carries for that field. -/
def verSeg : Option Nat → JStr
  | none => []
  | some v => '.' :: natToChars v

/-- The field set of a call packet, as the object `serialize('call', …)`
destructures. -/
def callDescriptor (callId : JVal) (iface : JStr) (verOpt : Option Nat)
    (meth : JStr) (args : JVal) : WireObj :=
  [("callId".toList, callId), ("iface".toList, .str iface),
   ("ver".toList, verJ verOpt), ("method".toList, .str meth),
   ("args".toList, args)]

/-- The object `deserializer.call` rebuilds for that field set: the same
fields (the source lists `method` before `ver`). -/
def decodedCall (callId : JVal) (iface : JStr) (verOpt : Option Nat)
    (meth : JStr) (args : JVal) : WireObj :=
  [("callId".toList, callId), ("iface".toList, .str iface),
   ("method".toList, .str meth), ("ver".toList, verJ verOpt),
   ("args".toList, args)]

/-- Round-trip of all five packet kinds: each field set serializes to the
stated wire object and deserializes back to its own kind and fields, the
call's version field included (absent stays absent, integer `v` travels as
the `.v` key segment and is parsed back). -/
def codecRoundtrip (callId : JVal) (iface : JStr) (verOpt : Option Nat)
    (meth : JStr) (args cbId result eventId : JVal) (eiface ename : JStr)
    (eargs sid sname ssize sstatus errId emsg ecode : JVal) : Prop :=
  (Protocol.serialize ("call".toList) (callDescriptor callId iface verOpt meth args)
     = some [("call".toList, callId),
             (iface ++ verSeg verOpt ++ '/' :: meth, args)]) ∧
  (Protocol.deserialize [("call".toList, callId),
      (iface ++ verSeg verOpt ++ '/' :: meth, args)]
     = .ok (some ("call".toList, decodedCall callId iface verOpt meth args))) ∧
  (Protocol.serialize ("callback".toList)
      [("callId".toList, cbId), ("result".toList, result)]
     = some [("callback".toList, cbId), ("result".toList, result)]) ∧
  (Protocol.deserialize [("callback".toList, cbId), ("result".toList, result)]
     = .ok (some ("callback".toList,
         [("callId".toList, cbId), ("result".toList, result)]))) ∧
  (Protocol.serialize ("event".toList)
      [("eventId".toList, eventId), ("iface".toList, .str eiface),
       ("eventName".toList, .str ename), ("args".toList, eargs)]
     = some [("event".toList, eventId), (eiface ++ '/' :: ename, eargs)]) ∧
  (Protocol.deserialize [("event".toList, eventId), (eiface ++ '/' :: ename, eargs)]
     = .ok (some ("event".toList,
         [("eventId".toList, eventId), ("iface".toList, .str eiface),
          ("eventName".toList, .str ename), ("args".toList, eargs)]))) ∧
  (Protocol.serialize ("stream".toList)
      [("streamId".toList, sid), ("name".toList, sname),
       ("size".toList, ssize), ("status".toList, sstatus)]
     = some [("stream".toList, sid), ("name".toList, sname),
             ("size".toList, ssize), ("status".toList, sstatus)]) ∧
  (Protocol.deserialize [("stream".toList, sid), ("name".toList, sname),
      ("size".toList, ssize), ("status".toList, sstatus)]
     = .ok (some ("stream".toList,
         [("streamId".toList, sid), ("name".toList, sname),
          ("size".toList, ssize), ("status".toList, sstatus)]))) ∧
  (Protocol.serialize ("error".toList)
      [("callId".toList, errId), ("message".toList, emsg), ("code".toList, ecode)]
     = some [("callback".toList, errId),
             ("error".toList, .obj [("message".toList, emsg),
                                    ("code".toList, ecode)])]) ∧
  (Protocol.deserialize [("callback".toList, errId),
      ("error".toList, .obj [("message".toList, emsg), ("code".toList, ecode)])]
     = .ok (some ("error".toList,
         [("callId".toList, errId), ("message".toList, emsg),
          ("code".toList, ecode)])))

/-- A concrete request for witnesses. -/
def testInfo : Channel.ReqInfo :=
  ⟨"127.0.0.1".toList, "/api".toList, "GET".toList⟩

/-- A freshly accepted channel: no cookie, empty store, empty registry, no
session, no streams. -/
def emptyChannel : Channel.ChannelState :=
  ⟨testInfo, none, fun _ => none, [], none, []⟩

/-- The decoded data of the stream-init packet `{stream: i, name, size}`. -/
def streamInitPacket (i : Int) (s : JStr) (n : Int) : WireObj :=
  [("streamId".toList, .num i), ("name".toList, .str s),
   ("size".toList, .num n), ("status".toList, .undef)]

/-- The decoded data of the `{stream: i, status: "end"}` packet. -/
def streamEndPacket (i : Int) : WireObj :=
  [("streamId".toList, .num i), ("name".toList, .undef),
   ("size".toList, .undef), ("status".toList, .str ("end".toList))]

/-- The channel with its stream table replaced (all other state kept). -/
def withStreams (st : Channel.ChannelState)
    (streams : List (JVal × Channel.MetaReadable)) : Channel.ChannelState :=
  { st with streams := streams }

/-- The wire `httpCode` precedence the spec states: the explicit (truthy)
`httpCode` argument, else the error's own (truthy) `httpCode`, else the
supplied code, else the 500 default. -/
def wireHttpCode (httpCode? errHttp code? : Option Nat) : Nat :=
  match httpCode?.filter (fun h => h != 0) with
  | some h => h
  | none =>
    match errHttp.filter (fun h => h != 0) with
    | some h => h
    | none => code?.getD 500

/-- The pass-through decision: an `httpCode` outside 500–599. -/
def passThrough (hc : Nat) : Bool :=
  decide (hc < 500) || decide (599 < hc)

/-! ### Arithmetic of the decimal rendering and `parseInt` -/

lemma charsToNat_append_singleton (a : List Char) (c : Char) :
    charsToNat (a ++ [c]) = charsToNat a * 10 + (c.toNat - 48) := by
  simp [charsToNat, List.foldl_append]

lemma digitChar_toNat {d : Nat} (h : d < 10) : (digitChar d).toNat = 48 + d := by
  interval_cases d <;> rfl

lemma digitChar_props {d : Nat} (h : d < 10) :
    (digitChar d).isDigit = true ∧ (digitChar d).isWhitespace = false ∧
    digitChar d ≠ '-' ∧ digitChar d ≠ '+' ∧ digitChar d ≠ '/' ∧
    digitChar d ≠ '.' := by
  interval_cases d <;>
    exact ⟨by decide, by decide, by decide, by decide, by decide, by decide⟩

lemma natToCharsAux_zero (fuel : Nat) : natToCharsAux fuel 0 = [] := by
  cases fuel <;> rfl

lemma natToCharsAux_spec :
    ∀ fuel n, 0 < n → n ≤ fuel →
      charsToNat (natToCharsAux fuel n) = n ∧
      natToCharsAux fuel n ≠ [] ∧
      ∀ c ∈ natToCharsAux fuel n, ∃ d, d < 10 ∧ c = digitChar d := by
  intro fuel
  induction fuel with
  | zero => intro n h1 h2; omega
  | succ f ih =>
    intro n h1 _
    have hunf : natToCharsAux (f + 1) n
        = natToCharsAux f (n / 10) ++ [digitChar (n % 10)] := by
      cases n with
      | zero => omega
      | succ m => rfl
    have hmod : n % 10 < 10 := Nat.mod_lt n (by norm_num)
    by_cases hq : n / 10 = 0
    · have hn10 : n < 10 := by omega
      rw [hunf, hq, natToCharsAux_zero, List.nil_append]
      refine ⟨?_, by simp, ?_⟩
      · have := digitChar_toNat hmod
        simp only [charsToNat, List.foldl_cons, List.foldl_nil, this]
        omega
      · intro c hc
        simp only [List.mem_singleton] at hc
        exact ⟨n % 10, hmod, hc⟩
    · have hlt : n / 10 < n := Nat.div_lt_self h1 (by norm_num)
      have hle : n / 10 ≤ f := by omega
      obtain ⟨hv, hne, hd⟩ := ih (n / 10) (Nat.pos_of_ne_zero hq) hle
      rw [hunf]
      refine ⟨?_, by simp, ?_⟩
      · rw [charsToNat_append_singleton, hv, digitChar_toNat hmod]
        omega
      · intro c hc
        rcases List.mem_append.mp hc with h | h
        · exact hd c h
        · simp only [List.mem_singleton] at h
          exact ⟨n % 10, hmod, h⟩

lemma natToChars_spec {n : Nat} (h : 0 < n) :
    charsToNat (natToChars n) = n ∧ natToChars n ≠ [] ∧
      ∀ c ∈ natToChars n, ∃ d, d < 10 ∧ c = digitChar d := by
  unfold natToChars
  rw [if_neg (by omega)]
  exact natToCharsAux_spec n n h le_rfl

lemma natToChars_not_mem_slash {n : Nat} (h : 0 < n) : '/' ∉ natToChars n := by
  intro hc
  obtain ⟨-, -, hd⟩ := natToChars_spec h
  obtain ⟨d, hd10, he⟩ := hd _ hc
  exact (digitChar_props hd10).2.2.2.2.1 he.symm

lemma natToChars_not_mem_dot {n : Nat} (h : 0 < n) : '.' ∉ natToChars n := by
  intro hc
  obtain ⟨-, -, hd⟩ := natToChars_spec h
  obtain ⟨d, hd10, he⟩ := hd _ hc
  exact (digitChar_props hd10).2.2.2.2.2 he.symm

lemma jsParseInt_natToChars {n : Nat} (h : 0 < n) :
    jsParseInt (natToChars n) = .num n := by
  obtain ⟨hval, hne, hdig⟩ := natToChars_spec h
  obtain ⟨c, rest, hcr⟩ := List.exists_cons_of_ne_nil hne
  obtain ⟨d, hd10, hcd⟩ := hdig c (by rw [hcr]; exact List.mem_cons_self c rest)
  obtain ⟨-, hws, hminus, hplus, -, -⟩ := digitChar_props hd10
  have hwsc : c.isWhitespace = false := hcd ▸ hws
  have hdrop : (natToChars n).dropWhile Char.isWhitespace = natToChars n := by
    rw [hcr, List.dropWhile_cons, hwsc]
    simp
  have hall : ∀ x ∈ natToChars n, Char.isDigit x = true := by
    intro x hx
    obtain ⟨e, he10, hxe⟩ := hdig x hx
    exact hxe ▸ (digitChar_props he10).1
  have htake : (natToChars n).takeWhile Char.isDigit = natToChars n :=
    List.takeWhile_eq_self_iff.mpr hall
  have hhead : (natToChars n).head? = some c := by rw [hcr]; rfl
  unfold jsParseInt
  rw [hdrop]
  simp only [hhead]
  rw [if_neg (by simp [hcd ▸ hminus]), if_neg (by simp [hcd ▸ hplus])]
  unfold jsParseIntFrom
  simp only [htake]
  rw [if_neg (by simp [hcr]), hval]

/-! ### The character-split used by the routing-key decode -/

lemma splitOnChar_nil (c : Char) : splitOnChar c [] = [[]] := rfl

lemma splitOnChar_cons (c a : Char) (rest : List Char) :
    splitOnChar c (a :: rest) =
      if a = c then [] :: splitOnChar c rest
      else
        match splitOnChar c rest with
        | [] => [[a]]
        | t :: ts => (a :: t) :: ts := rfl

lemma splitOnChar_ne_nil (c : Char) (s : List Char) : splitOnChar c s ≠ [] := by
  induction s with
  | nil => simp [splitOnChar_nil]
  | cons a rest ih =>
    rw [splitOnChar_cons]
    by_cases h : a = c
    · simp [h]
    · rw [if_neg h]
      cases hr : splitOnChar c rest with
      | nil => simp
      | cons t ts => simp

lemma splitOnChar_of_not_mem {c : Char} {s : List Char} (h : c ∉ s) :
    splitOnChar c s = [s] := by
  induction s with
  | nil => rfl
  | cons a rest ih =>
    have ha : a ≠ c := fun e => h (e ▸ List.mem_cons_self a rest)
    have hr : splitOnChar c rest = [rest] :=
      ih fun m => h (List.mem_cons_of_mem a m)
    rw [splitOnChar_cons, if_neg ha, hr]

lemma splitOnChar_append {c : Char} {a : List Char} (b : List Char)
    (ha : c ∉ a) : splitOnChar c (a ++ c :: b) = a :: splitOnChar c b := by
  induction a with
  | nil =>
    rw [List.nil_append, splitOnChar_cons, if_pos rfl]
  | cons x a' ih =>
    have hx : x ≠ c := fun e => ha (e ▸ List.mem_cons_self x a')
    have h' : splitOnChar c (a' ++ c :: b) = a' :: splitOnChar c b :=
      ih fun m => ha (List.mem_cons_of_mem x m)
    rw [List.cons_append, splitOnChar_cons, if_neg hx, h']

/-! ### `Map` lemmas -/

lemma mapGet_set_self {α : Type} (m : List (JStr × α)) (k : JStr) (v : α) :
    mapGet (mapSet m k v) k = some v := by
  induction m with
  | nil => simp [mapSet, mapGet]
  | cons p rest ih =>
    obtain ⟨k0, w⟩ := p
    by_cases h : k0 = k
    · simp [mapSet, h, mapGet]
    · simp [mapSet, h, mapGet, ih]

lemma mapGet_set_ne {α : Type} (m : List (JStr × α)) {k k' : JStr} (v : α)
    (h : k' ≠ k) : mapGet (mapSet m k v) k' = mapGet m k' := by
  induction m with
  | nil => simp [mapSet, mapGet, Ne.symm h]
  | cons p rest ih =>
    obtain ⟨k0, w⟩ := p
    by_cases h0 : k0 = k
    · subst h0
      simp [mapSet, mapGet, Ne.symm h]
    · simp only [mapSet, if_neg h0, mapGet]
      by_cases h1 : k0 = k'
      · simp [h1]
      · simp [h1, ih]

lemma mapGet_delete_self {α : Type} (m : List (JStr × α)) (k : JStr) :
    mapGet (mapDelete m k) k = none := by
  induction m with
  | nil => rfl
  | cons p rest ih =>
    obtain ⟨k0, w⟩ := p
    by_cases h : k0 = k
    · simpa [mapDelete, List.filter_cons, h] using ih
    · simpa [mapDelete, List.filter_cons, h, mapGet] using ih

lemma mapGet_delete_ne {α : Type} (m : List (JStr × α)) {k k' : JStr}
    (h : k' ≠ k) : mapGet (mapDelete m k) k' = mapGet m k' := by
  induction m with
  | nil => rfl
  | cons p rest ih =>
    obtain ⟨k0, w⟩ := p
    simp only [mapDelete] at ih ⊢
    rw [List.filter_cons]
    by_cases h0 : k0 = k
    · subst h0
      simp [mapGet, Ne.symm h, ih]
    · by_cases h1 : k0 = k'
      · subst h1
        simp [h0, mapGet, ih]
      · simp [h0, mapGet, h1, ih]

lemma jmapGet_delete_self (m : List (JVal × Channel.MetaReadable)) (k : JVal) :
    jmapGet (jmapDelete m k) k = none := by
  induction m with
  | nil => rfl
  | cons p rest ih =>
    obtain ⟨k0, w⟩ := p
    cases h : sameValueZero k0 k with
    | true => simpa [jmapDelete, List.filter_cons, h] using ih
    | false => simpa [jmapDelete, List.filter_cons, h, jmapGet] using ih

/-! ### Decode of serialized call/event wire packets -/

lemma key_ne_of_mem {key other : JStr} (h : '/' ∈ key) (ho : '/' ∉ other) :
    key ≠ other := fun e => ho (e ▸ h)

lemma getProp_cons_eq {k key : JStr} (h : k = key) (v : JVal) (rest : WireObj) :
    getProp ((k, v) :: rest) key = v := by
  simp [getProp, h]

lemma getProp_cons_ne {k key : JStr} (h : k ≠ key) (v : JVal) (rest : WireObj) :
    getProp ((k, v) :: rest) key = getProp rest key := by
  simp [getProp, h]

lemma deserializeCall_wire (callId args : JVal) (service meth : JStr)
    (hs : '/' ∉ service) (hm : '/' ∉ meth) :
    Protocol.deserialize [("call".toList, callId), (service ++ '/' :: meth, args)] =
      .ok (some ("call".toList,
        [("callId".toList, callId),
         ("iface".toList, Protocol.strOfOpt ((splitOnChar '.' service).get? 0)),
         ("method".toList, JVal.str meth),
         ("ver".toList, Protocol.verValue ((splitOnChar '.' service).get? 1)),
         ("args".toList, args)])) := by
  have hmem : '/' ∈ service ++ '/' :: meth :=
    List.mem_append.mpr (Or.inr (List.mem_cons_self _ _))
  have hne_err : service ++ '/' :: meth ≠ "error".toList :=
    key_ne_of_mem hmem (by decide)
  have hne_call : service ++ '/' :: meth ≠ "call".toList :=
    key_ne_of_mem hmem (by decide)
  have hsplit : splitOnChar '/' (service ++ '/' :: meth) = [service, meth] := by
    rw [splitOnChar_append _ hs, splitOnChar_of_not_mem hm]
  simp at hne_err hne_call
  simp [Protocol.deserialize, Protocol.deserializerCall, Protocol.strOfOpt,
    getProp, removeProp, hne_err, hne_call, hsplit, truthy]

lemma deserializeEvent_wire (eventId args : JVal) (iface ename : JStr)
    (hi : '/' ∉ iface) (he : '/' ∉ ename) :
    Protocol.deserialize [("event".toList, eventId), (iface ++ '/' :: ename, args)] =
      .ok (some ("event".toList,
        [("eventId".toList, eventId),
         ("iface".toList, JVal.str iface),
         ("eventName".toList, JVal.str ename),
         ("args".toList, args)])) := by
  have hmem : '/' ∈ iface ++ '/' :: ename :=
    List.mem_append.mpr (Or.inr (List.mem_cons_self _ _))
  have hne_err : iface ++ '/' :: ename ≠ "error".toList :=
    key_ne_of_mem hmem (by decide)
  have hne_event : iface ++ '/' :: ename ≠ "event".toList :=
    key_ne_of_mem hmem (by decide)
  have hsplit : splitOnChar '/' (iface ++ '/' :: ename) = [iface, ename] := by
    rw [splitOnChar_append _ hi, splitOnChar_of_not_mem he]
  simp at hne_err hne_event
  simp [Protocol.deserialize, Protocol.deserializerEvent, Protocol.strOfOpt,
    getProp, removeProp, hne_err, hne_event, hsplit, truthy]

lemma intToChars_natCast (v : Nat) : intToChars (v : Int) = natToChars v := by
  simp only [intToChars]
  rw [if_neg (by exact not_lt.mpr (Int.natCast_nonneg v))]
  simp

lemma jstr_num_nat (v : Nat) : jstr (.num (v : Int)) = natToChars v := by
  simp [jstr, intToChars_natCast]

lemma sameValueZero_num_self (i : Int) :
    sameValueZero (.num i) (.num i) = true := by
  simp [sameValueZero]

lemma jmapGet_set_num_self (m : List (JVal × Channel.MetaReadable)) (i : Int)
    (v : Channel.MetaReadable) :
    jmapGet (jmapSet m (.num i) v) (.num i) = some v := by
  induction m with
  | nil => simp [jmapSet, jmapGet, sameValueZero_num_self]
  | cons p rest ih =>
    obtain ⟨k0, w⟩ := p
    cases h : sameValueZero k0 (.num i) with
    | true => simp [jmapSet, h, jmapGet, sameValueZero_num_self]
    | false => simp [jmapSet, h, jmapGet, ih]

/-! ### The claims -/

/-- C1: for every supported packet kind and every valid field set,
`deserialize (serialize kind fields)` returns the same kind and the same
fields, modulo version normalization: a call with `ver` absent decodes with
`ver` absent (`undefined`, not `0`, not a string), and a call with integer
version `v` yields the `"iface.v/method"` key and decodes back to `v`. -/
theorem C1_codec_roundtrip (callId : JVal) (iface : JStr) (verOpt : Option Nat)
    (meth : JStr) (args cbId result eventId : JVal) (eiface ename : JStr)
    (eargs sid sname ssize sstatus errId emsg ecode : JVal)
    (hIfaceSlash : '/' ∉ iface) (hIfaceDot : '.' ∉ iface)
    (hIfaceNe : iface ≠ []) (hMethSlash : '/' ∉ meth) (hMethNe : meth ≠ [])
    (hVer : ∀ v ∈ verOpt, 0 < v)
    (hEIfaceSlash : '/' ∉ eiface) (hEIfaceNe : eiface ≠ [])
    (hEnameSlash : '/' ∉ ename) (hEnameNe : ename ≠ []) :
    codecRoundtrip callId iface verOpt meth args cbId result eventId
      eiface ename eargs sid sname ssize sstatus errId emsg ecode := by
  refine ⟨?_, ?_, rfl, rfl, ?_, ?_, rfl, rfl, rfl, rfl⟩
  · cases verOpt with
    | none =>
      simp [Protocol.serialize, Protocol.serializerCall, callDescriptor,
        verJ, verSeg, getProp, jstr, truthy]
    | some v =>
      have hv : 0 < v := hVer v rfl
      have hvz : ((v : Int) != 0) = true := by
        simp only [bne_iff_ne, ne_eq, Int.natCast_eq_zero]
        omega
      simp [Protocol.serialize, Protocol.serializerCall, callDescriptor,
        verJ, verSeg, getProp, intToChars_natCast, jstr, truthy, hvz]
  · cases verOpt with
    | none =>
      have h := deserializeCall_wire callId args iface meth hIfaceSlash hMethSlash
      rw [splitOnChar_of_not_mem hIfaceDot] at h
      simpa [verSeg, decodedCall, verJ, Protocol.strOfOpt, Protocol.verValue] using h
    | some v =>
      have hv : 0 < v := hVer v rfl
      have hsv : '/' ∉ iface ++ '.' :: natToChars v := by
        intro hc
        rcases List.mem_append.mp hc with h | h
        · exact hIfaceSlash h
        · rcases List.mem_cons.mp h with h | h
          · exact absurd h (by decide)
          · exact natToChars_not_mem_slash hv h
      have h := deserializeCall_wire callId args (iface ++ '.' :: natToChars v)
        meth hsv hMethSlash
      rw [splitOnChar_append _ hIfaceDot,
        splitOnChar_of_not_mem (natToChars_not_mem_dot hv)] at h
      have hne : (natToChars v).isEmpty = false := by
        rcases (natToChars_spec hv) with ⟨-, hnn, -⟩
        simpa using hnn
      rw [show (iface ++ verSeg (some v)) ++ '/' :: meth
            = (iface ++ '.' :: natToChars v) ++ '/' :: meth by simp [verSeg]]
      rw [h]
      simp [decodedCall, verJ, Protocol.strOfOpt, Protocol.verValue, hne,
        jsParseInt_natToChars hv]
  · simp [Protocol.serialize, Protocol.serializerEvent, getProp, jstr]
  · exact deserializeEvent_wire eventId eargs eiface ename hEIfaceSlash hEnameSlash

/-- Witness for C1 at the test suite's own values: `auth.1/signIn` and
company. -/
theorem C1_codec_roundtrip_witness :
    codecRoundtrip (.num 1) ("auth".toList) (some 1) ("signIn".toList)
      (.str ("arg".toList)) (.num 1) (.str ("token".toList)) (.num (-1))
      ("account".toList) ("created".toList) (.obj []) (.num 1)
      (.str ("some-name".toList)) (.num 1000000000) .undef (.num 1)
      (.str ("Invalid data".toList)) (.num 400) :=
  C1_codec_roundtrip (.num 1) ("auth".toList) (some 1) ("signIn".toList)
    (.str ("arg".toList)) (.num 1) (.str ("token".toList)) (.num (-1))
    ("account".toList) ("created".toList) (.obj []) (.num 1)
    (.str ("some-name".toList)) (.num 1000000000) .undef (.num 1)
    (.str ("Invalid data".toList)) (.num 400)
    (by decide) (by decide) (by decide) (by decide) (by decide)
    (by intro v hv; cases hv; omega)
    (by decide) (by decide) (by decide) (by decide)

/-- C10: a call descriptor whose `ver` field is falsy (`0`, the empty
string, or absent) serializes to the unversioned key `iface/method`, which
contains no `'.'`, and that wire packet decodes back with `ver` absent
(`undefined` — not `0` and not a string). -/
theorem C10_falsy_version_unversioned (callId args ver : JVal)
    (iface meth : JStr) (hfalsy : truthy ver = false)
    (hIfaceSlash : '/' ∉ iface) (hIfaceDot : '.' ∉ iface)
    (hIfaceNe : iface ≠ []) (hMethSlash : '/' ∉ meth) (hMethDot : '.' ∉ meth)
    (hMethNe : meth ≠ []) :
    Protocol.serialize ("call".toList)
        [("callId".toList, callId), ("iface".toList, .str iface),
         ("ver".toList, ver), ("method".toList, .str meth),
         ("args".toList, args)]
      = some [("call".toList, callId), (iface ++ '/' :: meth, args)] ∧
    '.' ∉ iface ++ '/' :: meth ∧
    Protocol.deserialize [("call".toList, callId), (iface ++ '/' :: meth, args)]
      = .ok (some ("call".toList, decodedCall callId iface none meth args)) := by
  refine ⟨?_, ?_, ?_⟩
  · simp [Protocol.serialize, Protocol.serializerCall, getProp, jstr, hfalsy]
  · intro hc
    rcases List.mem_append.mp hc with h | h
    · exact hIfaceDot h
    · rcases List.mem_cons.mp h with h | h
      · exact absurd h (by decide)
      · exact hMethDot h
  · have h := deserializeCall_wire callId args iface meth hIfaceSlash hMethSlash
    rw [splitOnChar_of_not_mem hIfaceDot] at h
    simpa [decodedCall, verJ, Protocol.strOfOpt, Protocol.verValue] using h

/-- Witness for C10 at `ver = 0` (the version the wire cannot carry). -/
theorem C10_falsy_version_witness :
    Protocol.serialize ("call".toList)
        [("callId".toList, .num 1), ("iface".toList, .str ("auth".toList)),
         ("ver".toList, .num 0), ("method".toList, .str ("signIn".toList)),
         ("args".toList, .num 7)]
      = some [("call".toList, .num 1),
              ("auth".toList ++ '/' :: "signIn".toList, .num 7)] ∧
    '.' ∉ "auth".toList ++ '/' :: "signIn".toList ∧
    Protocol.deserialize [("call".toList, .num 1),
        ("auth".toList ++ '/' :: "signIn".toList, .num 7)]
      = .ok (some ("call".toList,
          decodedCall (.num 1) ("auth".toList) none ("signIn".toList) (.num 7))) :=
  C10_falsy_version_unversioned (.num 1) (.num 7) (.num 0)
    ("auth".toList) ("signIn".toList) (by decide) (by decide) (by decide)
    (by decide) (by decide) (by decide) (by decide)

/-- C2 counterexample: a non-empty object whose only key is `foo` (no
`error` field, no known kind) makes `deserialize` throw a `TypeError`; it
does not return `null`. -/
theorem C2_unknown_kind_throws :
    Protocol.deserialize [("foo".toList, JVal.num 1)] =
      .error ("TypeError: deserializer[type] is not a function".toList) ∧
    Protocol.deserialize [("foo".toList, JVal.num 1)] ≠ Except.ok none :=
  ⟨rfl, fun h => Except.noConfusion h⟩

/-- C2 as amended: `deserialize({})` returns `null`, but an unrecognized
top-level key does not in general yield `null`: a key that names neither a
deserializer nor an inherited `Object.prototype` member — `foo` — makes
`deserializer[type](packet)` throw a `TypeError`.  (A key such as `toString`
would instead resolve to the inherited callable and return its value, so
neither behaviour is the `null` the claim states.) -/
theorem C2_amended_empty_and_unknown :
    Protocol.deserialize [] = Except.ok none ∧
    Protocol.deserialize [("foo".toList, JVal.num 1)] =
      .error ("TypeError: deserializer[type] is not a function".toList) :=
  ⟨rfl, rfl⟩

/-- C3: a text frame that parses to the empty object without being the
literal `'{}'` bytes decodes to `null`, and `Channel.message` then throws a
`TypeError` out of the dispatch path (destructuring the `null` decode
result), instead of sending the 500-class structure-error packet the dead
`if (!type)` branch was meant to produce. -/
theorem C3_decode_null_throws (st : Channel.ChannelState) :
    Protocol.deserialize [] = Except.ok none ∧
    Channel.message st false (some []) =
      .error ("TypeError: Cannot destructure property of null".toList) :=
  ⟨rfl, rfl⟩

/-- C4: a decoded call whose `callId` is zero, `iface` empty, `method`
empty, or `args` null is answered with the 400 structure-error packet — the
message travels to the peer (400 is pass-through) — and `rpc` is never
started, so the procedure is neither resolved nor invoked. -/
theorem C4_call_precondition_reject (st : Channel.ChannelState)
    (callId iface meth ver args : JVal)
    (h : callId = JVal.num 0 ∨ iface = JVal.str [] ∨ meth = JVal.str [] ∨
      args = JVal.null) :
    Channel.callHandler st
        [("callId".toList, callId), ("iface".toList, iface),
         ("method".toList, meth), ("ver".toList, ver), ("args".toList, args)] =
      (Channel.resumeCookieSession st,
       Channel.error (Channel.resumeCookieSession st).info (some 400) callId
         (some (Channel.mkError ("Packet structure error".toList))) none,
       false) ∧
    Channel.error (Channel.resumeCookieSession st).info (some 400) callId
        (some (Channel.mkError ("Packet structure error".toList))) none =
      [Channel.Output.logError ((Channel.resumeCookieSession st).info.ip
         ++ '\t' :: (Channel.resumeCookieSession st).info.reqMethod
         ++ '\t' :: (Channel.resumeCookieSession st).info.url
         ++ '\t' :: natToChars 400 ++ '\t' :: natToChars 400
         ++ '\t' :: "Error: Packet structure error".toList),
       Channel.Output.sent
         [("callback".toList, callId),
          ("error".toList, .obj
            [("message".toList, .str ("Packet structure error".toList)),
             ("code".toList, .num 400)])]
         (some 400)] := by
  constructor
  · rcases h with h | h | h | h <;> subst h <;>
      simp [Channel.callHandler, getProp, truthy]
  · simp [Channel.error, Channel.mkError, Channel.STATUS_CODES,
      Channel.optNatTruthy, Protocol.serializerError, getProp]

/-- Witness for C4: a call with `callId = 0` on a fresh channel. -/
theorem C4_call_precondition_witness :
    Channel.callHandler emptyChannel
        [("callId".toList, .num 0), ("iface".toList, .str ("auth".toList)),
         ("method".toList, .str ("signIn".toList)), ("ver".toList, .undef),
         ("args".toList, .num 7)] =
      (Channel.resumeCookieSession emptyChannel,
       Channel.error (Channel.resumeCookieSession emptyChannel).info (some 400)
         (.num 0) (some (Channel.mkError ("Packet structure error".toList))) none,
       false) ∧
    Channel.error (Channel.resumeCookieSession emptyChannel).info (some 400)
        (.num 0) (some (Channel.mkError ("Packet structure error".toList))) none =
      [Channel.Output.logError
         ((Channel.resumeCookieSession emptyChannel).info.ip
           ++ '\t' :: (Channel.resumeCookieSession emptyChannel).info.reqMethod
           ++ '\t' :: (Channel.resumeCookieSession emptyChannel).info.url
           ++ '\t' :: natToChars 400 ++ '\t' :: natToChars 400
           ++ '\t' :: "Error: Packet structure error".toList),
       Channel.Output.sent
         [("callback".toList, .num 0),
          ("error".toList, .obj
            [("message".toList, .str ("Packet structure error".toList)),
             ("code".toList, .num 400)])]
         (some 400)] :=
  C4_call_precondition_reject emptyChannel (.num 0) (.str ("auth".toList))
    (.str ("signIn".toList)) .undef (.num 7) (Or.inl rfl)

/-- C5: every `rpc` path pairs a successful `enter()` with exactly one
`leave()` (normal completion, returned error-typed result, thrown error —
the timeout remap to 408 included), the body runs only after a successful
`enter()`, and a rejected `enter()` sends the 503 packet with the body never
invoked and `leave()` never called. -/
theorem C5_enter_leave_pairing (st : Channel.ChannelState)
    (proc? : Option Channel.Proc) (callId iface meth : JVal) :
    ((Channel.rpc st proc? callId iface meth).enterSucceeded = true →
      (Channel.rpc st proc? callId iface meth).leaveCalls = 1) ∧
    ((Channel.rpc st proc? callId iface meth).invoked = true →
      (Channel.rpc st proc? callId iface meth).enterSucceeded = true) ∧
    ((Channel.rpc st proc? callId iface meth).enterCalled = true ∧
        (Channel.rpc st proc? callId iface meth).enterSucceeded = false →
      (Channel.rpc st proc? callId iface meth).outputs =
        Channel.error st.info (some 503) callId none none ∧
      (Channel.rpc st proc? callId iface meth).invoked = false ∧
      (Channel.rpc st proc? callId iface meth).leaveCalls = 0) ∧
    (∀ p e, proc? = some p → p.enterOk = true →
      p.outcome = .thrown e →
      (st.session.isNone && p.access != "public".toList) = false →
      e.message = "Timeout reached".toList →
      (Channel.rpc st proc? callId iface meth).outputs =
        Channel.error st.info (some 408) callId
          (some ⟨e.message, some 408, some 408, e.stack⟩) none) := by
  cases proc? with
  | none =>
    refine ⟨by simp [Channel.rpc], by simp [Channel.rpc], by simp [Channel.rpc], ?_⟩
    intro p' e' hp' hent' hout' hacc' hmsg
    cases hp'
  | some p =>
    simp only [Channel.rpc]
    cases hacc : (st.session.isNone && p.access != "public".toList) with
    | true =>
      try simp only [hacc]
      refine ⟨by simp, by simp, by simp, ?_⟩
      intro p' e' hp' hent' hout' hacc' hmsg
      injection hp' with hpe
      subst hpe
      rw [hacc] at hacc'
      cases hacc'
    | false =>
      try simp only [hacc]
      cases hent : p.enterOk with
      | false =>
        try simp only [hent]
        refine ⟨by simp, by simp, by simp, ?_⟩
        intro p' e' hp' hent' hout' hacc' hmsg
        injection hp' with hpe
        subst hpe
        rw [hent] at hent'
        cases hent'
      | true =>
        try simp only [hent]
        cases hout : p.outcome with
        | value v =>
          try simp only [hout]
          refine ⟨by simp, by simp, by simp, ?_⟩
          intro p' e' hp' hent' hout' hacc' hmsg
          injection hp' with hpe
          subst hpe
          rw [hout] at hout'
          cases hout'
        | errorValue e =>
          try simp only [hout]
          refine ⟨by simp, by simp, by simp, ?_⟩
          intro p' e' hp' hent' hout' hacc' hmsg
          injection hp' with hpe
          subst hpe
          rw [hout] at hout'
          cases hout'
        | thrown e =>
          try simp only [hout]
          refine ⟨by simp, by simp, by simp, ?_⟩
          intro p' e' hp' hent' hout' hacc' hmsg
          injection hp' with hpe
          subst hpe
          rw [hout] at hout'
          injection hout' with he
          subst he
          simp [Channel.remapTimeout, hmsg]

/-- C6: initializing a session for `tokenA` and then for `tokenB` on the
same channel leaves the process-wide registry without `tokenA`, with the
`tokenB` session, and binds the channel to the `tokenB` session. -/
theorem C6_session_replacement (st : Channel.ChannelState)
    (tokenA tokenB : JStr) (dataA dataB : JVal) (h : tokenA ≠ tokenB) :
    mapGet (Channel.initializeSession
        (Channel.initializeSession st tokenA dataA) tokenB dataB).sessions
        tokenA = none ∧
    mapGet (Channel.initializeSession
        (Channel.initializeSession st tokenA dataA) tokenB dataB).sessions
        tokenB = some ⟨tokenB, dataB⟩ ∧
    (Channel.initializeSession
        (Channel.initializeSession st tokenA dataA) tokenB dataB).session =
      some ⟨tokenB, dataB⟩ := by
  refine ⟨?_, ?_, rfl⟩
  · simp only [Channel.initializeSession]
    rw [mapGet_set_ne _ _ h, mapGet_delete_self]
  · simp only [Channel.initializeSession]
    rw [mapGet_set_self]

/-- Witness for C6 with tokens `a` and `b` on a fresh channel. -/
theorem C6_session_replacement_witness :
    mapGet (Channel.initializeSession
        (Channel.initializeSession emptyChannel ("a".toList) .null)
        ("b".toList) .null).sessions ("a".toList) = none ∧
    mapGet (Channel.initializeSession
        (Channel.initializeSession emptyChannel ("a".toList) .null)
        ("b".toList) .null).sessions ("b".toList) = some ⟨"b".toList, .null⟩ ∧
    (Channel.initializeSession
        (Channel.initializeSession emptyChannel ("a".toList) .null)
        ("b".toList) .null).session = some ⟨"b".toList, .null⟩ :=
  C6_session_replacement emptyChannel ("a".toList) ("b".toList) .null .null
    (by decide)

/-- C7: `finalizeSession(token)` fails and changes nothing when `token` is
unregistered or the channel has no bound session; otherwise it evicts the
token of the channel's *current* session, unbinds it, and succeeds — and
when the argument names a different registered session, that entry stays
registered. -/
theorem C7_finalize_session (st : Channel.ChannelState) (token : JStr) :
    (mapGet st.sessions token = none →
      Channel.finalizeSession st token = (st, false)) ∧
    (st.session = none → Channel.finalizeSession st token = (st, false)) ∧
    (∀ s cur, mapGet st.sessions token = some s → st.session = some cur →
      Channel.finalizeSession st token =
        ({ st with sessions := mapDelete st.sessions cur.token,
                   session := none }, true) ∧
      (token ≠ cur.token →
        mapGet (mapDelete st.sessions cur.token) token = some s)) := by
  refine ⟨?_, ?_, ?_⟩
  · intro h
    simp [Channel.finalizeSession, h]
  · intro h
    cases hm : mapGet st.sessions token <;>
      simp [Channel.finalizeSession, hm, h]
  · intro s cur hs hcur
    constructor
    · simp [Channel.finalizeSession, hs, hcur]
    · intro hne
      rw [mapGet_delete_ne _ hne]
      exact hs

/-- C8: on one channel, a stream-init packet with a non-empty string name, a
valid non-negative size and a fresh id registers the inbound stream; a chunk
for that id is then pushed into it; a second init packet for the id yields
the 400 "already initialized" error and changes nothing; an `end` status
packet closes the stream and evicts its entry; a chunk after that yields the
400 "not initialized" error. -/
theorem C8_stream_lifecycle (st : Channel.ChannelState) (i : Int) (s : JStr)
    (n : Int) (payload : JVal)
    (hfresh : jmapGet st.streams (.num i) = none)
    (hs : s ≠ []) (hn0 : 0 ≤ n) (hnsafe : n ≤ 9007199254740991) :
    Channel.streamHandler st (streamInitPacket i s n) =
      (withStreams st (jmapSet st.streams (.num i) ⟨.num i, .str s, .num n⟩),
       []) ∧
    Channel.binary
        (withStreams st (jmapSet st.streams (.num i) ⟨.num i, .str s, .num n⟩))
        (.ok (.num i, payload)) =
      (withStreams st (jmapSet st.streams (.num i) ⟨.num i, .str s, .num n⟩),
       [.pushed (.num i) payload]) ∧
    Channel.streamHandler
        (withStreams st (jmapSet st.streams (.num i) ⟨.num i, .str s, .num n⟩))
        (streamInitPacket i s n) =
      (withStreams st (jmapSet st.streams (.num i) ⟨.num i, .str s, .num n⟩),
       Channel.error st.info (some 400) (.num i)
         (some (Channel.mkError ("Stream ".toList ++ s
            ++ " is already initialized".toList))) none) ∧
    Channel.streamHandler
        (withStreams st (jmapSet st.streams (.num i) ⟨.num i, .str s, .num n⟩))
        (streamEndPacket i) =
      (withStreams st
        (jmapDelete (jmapSet st.streams (.num i) ⟨.num i, .str s, .num n⟩) (.num i)),
       [.streamClosed (.num i)]) ∧
    jmapGet (jmapDelete (jmapSet st.streams (.num i) ⟨.num i, .str s, .num n⟩)
        (.num i)) (.num i) = none ∧
    Channel.binary
        (withStreams st
          (jmapDelete (jmapSet st.streams (.num i) ⟨.num i, .str s, .num n⟩) (.num i)))
        (.ok (.num i, payload)) =
      (withStreams st
        (jmapDelete (jmapSet st.streams (.num i) ⟨.num i, .str s, .num n⟩) (.num i)),
       Channel.error st.info (some 400) (.num i)
         (some (Channel.mkError ("Stream ".toList ++ intToChars i
            ++ " is not initialized".toList))) none) := by
  have hse : s.isEmpty = false := by simpa using hs
  have habs : (decide (Int.natAbs n ≤ 9007199254740991)) = true := by
    simp only [decide_eq_true_eq]
    omega
  refine ⟨?_, ?_, ?_, ?_, jmapGet_delete_self _ _, ?_⟩
  · simp [Channel.streamHandler, streamInitPacket, withStreams, getProp, truthy,
      Channel.isString, Channel.isSafeInteger, hse, habs, hfresh]
  · simp [Channel.binary, withStreams, jmapGet_set_num_self]
  · simp [Channel.streamHandler, streamInitPacket, withStreams, getProp, truthy,
      Channel.isString, Channel.isSafeInteger, hse, habs,
      jmapGet_set_num_self, jstr]
  · simp [Channel.streamHandler, streamEndPacket, withStreams, getProp, truthy,
      Channel.isString, Channel.isSafeInteger, jmapGet_set_num_self,
      Channel.isStrEq]
  · simp [Channel.binary, withStreams, jmapGet_delete_self, jstr]

/-- Witness for C8: stream 1 named `f` of size 1000 on a fresh channel. -/
theorem C8_stream_lifecycle_witness :
    Channel.streamHandler emptyChannel (streamInitPacket 1 ("f".toList) 1000) =
      (withStreams emptyChannel
         (jmapSet emptyChannel.streams (.num 1) ⟨.num 1, .str ("f".toList), .num 1000⟩),
       []) ∧
    Channel.binary
        (withStreams emptyChannel
          (jmapSet emptyChannel.streams (.num 1) ⟨.num 1, .str ("f".toList), .num 1000⟩))
        (.ok (.num 1, .str ("chunk".toList))) =
      (withStreams emptyChannel
         (jmapSet emptyChannel.streams (.num 1) ⟨.num 1, .str ("f".toList), .num 1000⟩),
       [.pushed (.num 1) (.str ("chunk".toList))]) ∧
    Channel.streamHandler
        (withStreams emptyChannel
          (jmapSet emptyChannel.streams (.num 1) ⟨.num 1, .str ("f".toList), .num 1000⟩))
        (streamInitPacket 1 ("f".toList) 1000) =
      (withStreams emptyChannel
         (jmapSet emptyChannel.streams (.num 1) ⟨.num 1, .str ("f".toList), .num 1000⟩),
       Channel.error emptyChannel.info (some 400) (.num 1)
         (some (Channel.mkError ("Stream ".toList ++ "f".toList
            ++ " is already initialized".toList))) none) ∧
    Channel.streamHandler
        (withStreams emptyChannel
          (jmapSet emptyChannel.streams (.num 1) ⟨.num 1, .str ("f".toList), .num 1000⟩))
        (streamEndPacket 1) =
      (withStreams emptyChannel
         (jmapDelete (jmapSet emptyChannel.streams (.num 1) ⟨.num 1, .str ("f".toList), .num 1000⟩) (.num 1)),
       [.streamClosed (.num 1)]) ∧
    jmapGet (jmapDelete (jmapSet emptyChannel.streams (.num 1)
        ⟨.num 1, .str ("f".toList), .num 1000⟩) (.num 1)) (.num 1) = none ∧
    Channel.binary
        (withStreams emptyChannel
          (jmapDelete (jmapSet emptyChannel.streams (.num 1) ⟨.num 1, .str ("f".toList), .num 1000⟩) (.num 1)))
        (.ok (.num 1, .str ("chunk".toList))) =
      (withStreams emptyChannel
         (jmapDelete (jmapSet emptyChannel.streams (.num 1) ⟨.num 1, .str ("f".toList), .num 1000⟩) (.num 1)),
       Channel.error emptyChannel.info (some 400) (.num 1)
         (some (Channel.mkError ("Stream ".toList ++ intToChars 1
            ++ " is not initialized".toList))) none) :=
  C8_stream_lifecycle emptyChannel 1 ("f".toList) 1000 (.str ("chunk".toList))
    rfl (by decide) (by decide) (by decide)

/-- C9: with an underlying error present, `Channel.error` logs one line
carrying the error's full stack, and emits exactly one error packet whose
`message` is the error's own message when the wire `httpCode` (chosen with
the explicit > error's own > supplied code > 500 precedence) is pass-through
and the generic status phrase otherwise, and whose only other payload field
is the supplied protocol `code`. -/
theorem C9_error_policy (info : Channel.ReqInfo) (code? : Option Nat)
    (callId : JVal) (e : Channel.JSError) (httpCode? : Option Nat) :
    Channel.error info code? callId (some e) httpCode? =
      [Channel.Output.logError (info.ip ++ '\t' :: info.reqMethod
         ++ '\t' :: info.url
         ++ '\t' :: natToChars (wireHttpCode httpCode? e.httpCode code?)
         ++ '\t' :: natToChars (code?.getD 500) ++ '\t' :: e.stack),
       Channel.Output.sent
         [("callback".toList, callId),
          ("error".toList, JVal.obj
            [("message".toList, .str
               (if passThrough (wireHttpCode httpCode? e.httpCode code?) = true
                then e.message
                else (Channel.STATUS_CODES
                  (wireHttpCode httpCode? e.httpCode code?)).getD
                    ("Unknown error".toList))),
             ("code".toList, .num (code?.getD 500))])]
         (some (wireHttpCode httpCode? e.httpCode code?))] := by
  have hhc : (if Channel.optNatTruthy httpCode? = true then httpCode?.getD 500
      else if Channel.optNatTruthy e.httpCode = true then e.httpCode.getD 500
      else code?.getD 500) = wireHttpCode httpCode? e.httpCode code? := by
    rcases httpCode? with _ | h
    · rcases e.httpCode with _ | h2
      · simp [Channel.optNatTruthy, wireHttpCode, Option.filter]
      · by_cases hz : h2 = 0 <;>
          simp [Channel.optNatTruthy, wireHttpCode, Option.filter, hz]
    · by_cases hz : h = 0
      · rcases e.httpCode with _ | h2
        · simp [Channel.optNatTruthy, wireHttpCode, Option.filter, hz]
        · by_cases hz2 : h2 = 0 <;>
            simp [Channel.optNatTruthy, wireHttpCode, Option.filter, hz, hz2]
      · simp [Channel.optNatTruthy, wireHttpCode, Option.filter, hz]
  simp only [Channel.error, hhc, Protocol.serializerError, getProp]
  cases hp : passThrough (wireHttpCode httpCode? e.httpCode code?) with
  | true =>
    simp only [passThrough] at hp
    simp [hp, getProp]
  | false =>
    simp only [passThrough] at hp
    simp only [Bool.or_eq_false_iff, decide_eq_false_iff_not] at hp
    simp [getProp, decide_eq_true_eq, hp.1, hp.2, Nat.not_lt.mpr,
      if_neg, Channel.STATUS_CODES]
